import Mathlib

/-
  Verification development for the CanvasSlider component
  (src/src/CanvasSlider.tsx of kannifarhad/publitasTask).

  The component is shallowly embedded: JS numbers become rationals (ℚ),
  the canvas 2D context transform becomes an explicit 6-entry matrix,
  draw calls become recorded values, and the event-driven component
  becomes a step function on an explicit state record.
-/

namespace CanvasSlider

/-- The canvas 2D context transform matrix (a, b, c, d, e, f), as used by
setTransform / scale. -/
structure Transform where
  a : ℚ
  b : ℚ
  c : ℚ
  d : ℚ
  e : ℚ
  f : ℚ
deriving DecidableEq, Repr

/-- ctx.setTransform(1, 0, 0, 1, 0, 0): the identity matrix. -/
def Transform.setIdentity : Transform := ⟨1, 0, 0, 1, 0, 0⟩

/-- ctx.scale(sx, sy): post-multiplies the current transform by a scaling
matrix. -/
def Transform.scaleBy (t : Transform) (sx sy : ℚ) : Transform :=
  ⟨t.a * sx, t.b * sx, t.c * sy, t.d * sy, t.e, t.f⟩

/-- A rectangle (position and size) in logical canvas coordinates. -/
structure FitRect where
  x : ℚ
  y : ℚ
  w : ℚ
  h : ℚ
deriving DecidableEq, Repr

/-- Embeds drawImageFit (CanvasSlider.tsx lines 20-47).  The source computes
locals drawWidth, drawHeight, drawX, drawY from the image's intrinsic size and
the canvas size, and then draws at (drawX + xOffset, drawY); this definition
returns that local rectangle, i.e. the draw rectangle relative to the target
slot (before the xOffset translation applied at the draw call).  Positive
widths and heights are assumed where the claims use it, matching finite
positive JS numbers. -/
def drawImageFit (imgWidth imgHeight canvasWidth canvasHeight : ℚ) : FitRect :=
  let imgRatio := imgWidth / imgHeight
  let canvasRatio := canvasWidth / canvasHeight
  if imgRatio > canvasRatio then
    { x := 0, y := (canvasHeight - canvasWidth / imgRatio) / 2,
      w := canvasWidth, h := canvasWidth / imgRatio }
  else
    { x := (canvasWidth - canvasHeight * imgRatio) / 2, y := 0,
      w := canvasHeight * imgRatio, h := canvasHeight }

/-- Truncation toward zero, as used by the JavaScript % operator. -/
def jsTrunc (q : ℚ) : ℤ := if 0 ≤ q then ⌊q⌋ else ⌈q⌉

/-- The JavaScript remainder operator on numbers: a % b = a - b * trunc(a / b)
(for finite a and nonzero b; the claims only use it with a ≥ 0 and b > 0,
where it agrees with the mathematical mod). -/
def jsFmod (a b : ℚ) : ℚ := a - b * jsTrunc (a / b)

/-- Embeds drawCurrentImages (CanvasSlider.tsx lines 60-77).  slideWidth is
the logical canvas width, slideIndex = Math.floor(scroll / slideWidth),
offset = scroll % slideWidth.  The output is the ordered list of
(slide index, xOffset) pairs passed to drawImageFit; the array accesses
loadedImages[slideIndex] and loadedImages[slideIndex + 1] are truthy exactly
when the (integer) index lies in [0, n). -/
def drawCurrentImages (n : ℕ) (scroll width : ℚ) : List (ℤ × ℚ) :=
  let slideWidth := width
  let slideIndex : ℤ := ⌊scroll / slideWidth⌋
  let offset : ℚ := jsFmod scroll slideWidth
  (if 0 ≤ slideIndex ∧ slideIndex < (n : ℤ) then [(slideIndex, -offset)] else []) ++
    (if 0 ≤ slideIndex + 1 ∧ slideIndex + 1 < (n : ℤ) then
      [(slideIndex + 1, width - offset)] else [])

/-- Promise.all over the already-settled outcomes of the individual image
loads: succeeds with all values, in input order, exactly when every load
succeeded; rejects when any load rejected. -/
def promiseAll {β : Type} : List (Option β) → Option (List β)
  | [] => some []
  | o :: os =>
    match o with
    | none => none
    | some b =>
      match promiseAll os with
      | none => none
      | some bs => some (b :: bs)

/-- Embeds the loadImages effect body (CanvasSlider.tsx lines 80-97): each
source is loaded (outcome given by the oracle `load`); on joint success the
loaded list is committed via setLoadedImages; on any failure the awaited
Promise.all rejects, setLoadedImages is never reached, and the previous
loaded-images state `prev` is left unchanged. -/
def loadImages {α β : Type} (load : α → Option β) (images : List α)
    (prev : List β) : List β :=
  match promiseAll (images.map load) with
  | some loaded => loaded
  | none => prev

/-- State for the image-list reload race (CanvasSlider.tsx lines 80-97): the
preload effect re-runs whenever the images prop changes, so each run is a
request generation.  `latest` is the generation of the most recent request,
`inFlight` holds requests whose joint load has not yet settled (paired with
the list they will deliver on success), and `committed` is the loadedImages
state. -/
structure LoaderState (β : Type) where
  latest : ℕ
  inFlight : List (ℕ × List β)
  committed : List β
deriving DecidableEq, Repr

/-- The images prop changes: the effect re-runs and a new load request is
issued with a fresh generation id.  Nothing cancels the older requests. -/
def issueLoad {β : Type} (s : LoaderState β) (result : List β) : LoaderState β :=
  { latest := s.latest + 1,
    inFlight := (s.latest + 1, result) :: s.inFlight,
    committed := s.committed }

/-- An in-flight request with generation id `i` settles successfully: the
code runs setLoadedImages(loaded) unconditionally — there is no comparison of
`i` against the most recent generation (no staleness guard exists in
CanvasSlider.tsx lines 80-97). -/
def settleLoad {β : Type} (s : LoaderState β) (i : ℕ) : LoaderState β :=
  match s.inFlight.filter (fun p => p.1 = i) with
  | [] => s
  | (_, loaded) :: _ =>
    { latest := s.latest,
      inFlight := s.inFlight.filter (fun p => p.1 ≠ i),
      committed := loaded }

/-- One invocation of drawCurrentImages, recorded with the values it reads at
call time: the loaded image count, the scroll ref, and the logical canvas
rectangle (CanvasSlider.tsx lines 60-68 re-read all of these when the draw
runs, rather than using a snapshot from scheduling time). -/
structure RenderCall where
  count : ℕ
  scroll : ℚ
  width : ℚ
  height : ℚ
deriving DecidableEq, Repr

/-- The component state: React state (loadedImages length, isDragging), the
mutable refs (startXRef, scrollRef, animationFrame), the canvas's logical
bounding rectangle and device pixel ratio, the canvas backing store and
context transform, and the recorded list of drawCurrentImages invocations
(most recent first). `frameReqs` counts callbacks currently queued with
requestAnimationFrame; `frameFlag` is whether animationFrame.current is
non-null. -/
structure SliderState where
  loadedCount : ℕ
  isDragging : Bool
  startX : ℚ
  scroll : ℚ
  frameReqs : ℕ
  frameFlag : Bool
  rectW : ℚ
  rectH : ℚ
  dpr : ℚ
  backingW : ℚ
  backingH : ℚ
  tf : Transform
  paints : List RenderCall
deriving DecidableEq, Repr

/-- The arguments drawCurrentImages would read if invoked in state s. -/
def mkRenderCall (s : SliderState) : RenderCall :=
  ⟨s.loadedCount, s.scroll, s.rectW, s.rectH⟩

/-- Embeds handleMouseDown (CanvasSlider.tsx lines 128-131): unconditionally
enters the dragging state and records the pointer X. -/
def handleMouseDown (s : SliderState) (clientX : ℚ) : SliderState :=
  { s with isDragging := true, startX := clientX }

/-- Embeds handleMouseMove (CanvasSlider.tsx lines 133-150): bails out unless
dragging with at least one loaded image; otherwise computes
dx = clientX - startXRef, updates startXRef, clamps
scrollRef - dx into [0, (loadedImages.length - 1) * width], and schedules a
redraw via requestAnimationFrame only when none is already pending. -/
def handleMouseMove (s : SliderState) (clientX : ℚ) : SliderState :=
  if s.isDragging = true ∧ s.loadedCount ≠ 0 then
    let dx := clientX - s.startX
    let maxScroll := ((s.loadedCount : ℚ) - 1) * s.rectW
    let s1 := { s with startX := clientX,
                       scroll := max 0 (min (s.scroll - dx) maxScroll) }
    if s1.frameFlag then s1
    else { s1 with frameReqs := s1.frameReqs + 1, frameFlag := true }
  else s

/-- Embeds handleMouseUp (CanvasSlider.tsx line 152). -/
def handleMouseUp (s : SliderState) : SliderState :=
  { s with isDragging := false }

/-- The scheduled requestAnimationFrame callback fires (CanvasSlider.tsx
lines 145-148): it runs drawCurrentImages — reading the scroll ref and canvas
rectangle at fire time — and then clears animationFrame.current. -/
def fireFrame (s : SliderState) : SliderState :=
  if s.frameReqs ≠ 0 then
    { s with paints := mkRenderCall s :: s.paints,
             frameReqs := s.frameReqs - 1, frameFlag := false }
  else s

/-- Embeds resizeCanvas (CanvasSlider.tsx lines 108-116): sets the backing
store to the bounding rectangle times the device pixel ratio, resets the
transform, scales by dpr, and runs drawCurrentImages once.  The scroll ref is
not touched. -/
def resizeCanvas (s : SliderState) : SliderState :=
  let s1 := { s with backingW := s.rectW * s.dpr, backingH := s.rectH * s.dpr,
                     tf := Transform.setIdentity.scaleBy s.dpr s.dpr }
  { s1 with paints := mkRenderCall s1 :: s1.paints }

/-- External events delivered to the component on the single UI thread. -/
inductive Event where
  | mouseDown (x : ℚ)
  | mouseMove (x : ℚ)
  | mouseUp
  | resize (w h : ℚ)
  | frameFire
  | imagesLoaded (n : ℕ)
deriving DecidableEq, Repr

/-- One event-loop step.  A resize event first changes the canvas's bounding
rectangle (the layout change) and then runs the resizeCanvas handler, which
is only registered while loadedImages is non-empty (the effect at lines
101-121 returns early otherwise).  imagesLoaded models setLoadedImages
committing n images, after which that same effect re-runs resizeCanvas. -/
def step (s : SliderState) : Event → SliderState
  | .mouseDown x => handleMouseDown s x
  | .mouseMove x => handleMouseMove s x
  | .mouseUp => handleMouseUp s
  | .resize w h =>
    let s1 := { s with rectW := w, rectH := h }
    if s.loadedCount = 0 then s1 else resizeCanvas s1
  | .frameFire => fireFrame s
  | .imagesLoaded n =>
    let s1 := { s with loadedCount := n }
    if n = 0 then s1 else resizeCanvas s1

/-- Initial component state: no images, not dragging, scroll ref 0, no
pending animation frame, canvas at its initial bounding rectangle. -/
def initState (w h dpr : ℚ) : SliderState :=
  { loadedCount := 0, isDragging := false, startX := 0, scroll := 0,
    frameReqs := 0, frameFlag := false, rectW := w, rectH := h, dpr := dpr,
    backingW := 0, backingH := 0, tf := Transform.setIdentity, paints := [] }

/-- Run a list of events from a state. -/
def run (s : SliderState) (evs : List Event) : SliderState :=
  evs.foldl step s

/-- The CSS cursor values used on the canvas element. -/
inductive Cursor where
  | grab
  | grabbing
deriving DecidableEq, Repr

/-- The cursor style of the canvas (CanvasSlider.tsx line 175). -/
def cursorOf (s : SliderState) : Cursor :=
  if s.isDragging then .grabbing else .grab


lemma handleMouseMove_of_not_dragging (s : SliderState) (x : ℚ)
    (h : ¬ (s.isDragging = true ∧ s.loadedCount ≠ 0)) : handleMouseMove s x = s := by
  unfold handleMouseMove
  rw [if_neg h]

lemma handleMouseMove_scroll (s : SliderState) (x : ℚ)
    (hd : s.isDragging = true) (hn : s.loadedCount ≠ 0) :
    (handleMouseMove s x).scroll
      = max 0 (min (s.scroll - (x - s.startX)) (((s.loadedCount : ℚ) - 1) * s.rectW)) := by
  unfold handleMouseMove
  rw [if_pos ⟨hd, hn⟩]
  by_cases hf : s.frameFlag <;> simp [hf]

lemma handleMouseMove_startX (s : SliderState) (x : ℚ)
    (hd : s.isDragging = true) (hn : s.loadedCount ≠ 0) :
    (handleMouseMove s x).startX = x := by
  unfold handleMouseMove
  rw [if_pos ⟨hd, hn⟩]
  by_cases hf : s.frameFlag <;> simp [hf]

lemma handleMouseMove_scroll_cases (s : SliderState) (x : ℚ) :
    (handleMouseMove s x).scroll = s.scroll
    ∨ (handleMouseMove s x).scroll
        = max 0 (min (s.scroll - (x - s.startX)) (((s.loadedCount : ℚ) - 1) * s.rectW)) := by
  by_cases hg : s.isDragging = true ∧ s.loadedCount ≠ 0
  · exact Or.inr (handleMouseMove_scroll s x hg.1 hg.2)
  · exact Or.inl (by rw [handleMouseMove_of_not_dragging s x hg])

lemma step_scroll_nonneg (s : SliderState) (e : Event) (h : 0 ≤ s.scroll) :
    0 ≤ (step s e).scroll := by
  cases e with
  | mouseDown x => simpa [step, handleMouseDown] using h
  | mouseMove x =>
    have hs : (step s (Event.mouseMove x)).scroll = (handleMouseMove s x).scroll := rfl
    rcases handleMouseMove_scroll_cases s x with hc | hc
    · rw [hs, hc]; exact h
    · rw [hs, hc]; exact le_max_left 0 _
  | mouseUp => simpa [step, handleMouseUp] using h
  | resize w hh =>
    simp only [step]
    split_ifs <;> simpa [resizeCanvas, mkRenderCall] using h
  | frameFire =>
    simp only [step, fireFrame]
    split_ifs <;> simpa [mkRenderCall] using h
  | imagesLoaded n =>
    simp only [step]
    split_ifs <;> simpa [resizeCanvas, mkRenderCall] using h

lemma run_scroll_nonneg (evs : List Event) : ∀ (s : SliderState), 0 ≤ s.scroll →
    0 ≤ (run s evs).scroll := by
  induction evs with
  | nil => intro s h; exact h
  | cons e es ih => intro s h; exact ih (step s e) (step_scroll_nonneg s e h)

/-- Invariant of the animationFrame ref discipline: the number of callbacks
queued with requestAnimationFrame is 1 when animationFrame.current is set and
0 when it is null. -/
def FrameInv (s : SliderState) : Prop :=
  s.frameReqs = if s.frameFlag = true then 1 else 0

lemma frameInv_step (s : SliderState) (e : Event) (h : FrameInv s) :
    FrameInv (step s e) := by
  unfold FrameInv at h ⊢
  cases e with
  | mouseDown x => simpa [step, handleMouseDown] using h
  | mouseMove x =>
    simp only [step]
    unfold handleMouseMove
    split_ifs with h1 h2 <;> simp_all
  | mouseUp => simpa [step, handleMouseUp] using h
  | resize w hh =>
    simp only [step]
    split_ifs <;> simp_all [resizeCanvas, mkRenderCall]
  | frameFire =>
    simp only [step]
    unfold fireFrame
    split_ifs with h1 <;> simp_all
  | imagesLoaded n =>
    simp only [step]
    split_ifs <;> simp_all [resizeCanvas, mkRenderCall]

lemma frameInv_run (evs : List Event) : ∀ (s : SliderState), FrameInv s →
    FrameInv (run s evs) := by
  induction evs with
  | nil => intro s h; exact h
  | cons e es ih => intro s h; exact ih (step s e) (frameInv_step s e h)

/-- A concrete mid-drag component state: 4 images loaded, dragging, viewport
640 by 400 at device pixel ratio 1. -/
def sampleState : SliderState :=
  { loadedCount := 4, isDragging := true, startX := 0, scroll := 0,
    frameReqs := 0, frameFlag := false, rectW := 640, rectH := 400, dpr := 1,
    backingW := 640, backingH := 400, tf := Transform.setIdentity, paints := [] }

/-- sampleState with an animation-frame request pending. -/
def pendingState : SliderState :=
  { sampleState with frameFlag := true, frameReqs := 1 }

/-- C2: while dragging with N at least 1 loaded images and positive slide
width, the stored scroll offset after a pointer-move update is the proposed
offset scroll - dx clamped into [0, (N - 1) * slideWidth]; in particular it
lies in that interval after every update, from any prior offset. -/
theorem scroll_clamped_each_update (s : SliderState) (x : ℚ)
    (hd : s.isDragging = true) (hn : s.loadedCount ≠ 0) (hw : 0 < s.rectW) :
    (handleMouseMove s x).scroll
      = max 0 (min (s.scroll - (x - s.startX)) (((s.loadedCount : ℚ) - 1) * s.rectW))
    ∧ 0 ≤ (handleMouseMove s x).scroll
    ∧ (handleMouseMove s x).scroll ≤ ((s.loadedCount : ℚ) - 1) * s.rectW := by
  have heq := handleMouseMove_scroll s x hd hn
  have hM : 0 ≤ ((s.loadedCount : ℚ) - 1) * s.rectW := by
    have h1 : (1 : ℚ) ≤ (s.loadedCount : ℚ) := by
      exact_mod_cast Nat.one_le_iff_ne_zero.mpr hn
    nlinarith
  refine ⟨heq, ?_, ?_⟩
  · rw [heq]; exact le_max_left 0 _
  · rw [heq]; exact max_le hM (min_le_right _ _)

/-- C2 witness: a 700px leftward pointer move in the concrete sample state
keeps the offset within [0, 3 * 640]. -/
theorem scroll_clamped_each_update_witness :
    0 ≤ (handleMouseMove sampleState (-700)).scroll
    ∧ (handleMouseMove sampleState (-700)).scroll
        ≤ ((sampleState.loadedCount : ℚ) - 1) * sampleState.rectW := by
  have h := scroll_clamped_each_update sampleState (-700) rfl (by decide)
    (by norm_num [sampleState])
  exact ⟨h.2.1, h.2.2⟩

/-- C5: a pointer-move while dragging with images loaded computes
dx = clientX - startXRef, stores clientX into startXRef, and proposes
scroll - dx as the new offset (clamped before storage); a negative delta
(pointer moving left) makes the proposed, unclamped offset strictly larger
than the previous offset. -/
theorem handleMouseMove_delta_spec (s : SliderState) (x : ℚ)
    (hd : s.isDragging = true) (hn : s.loadedCount ≠ 0) :
    (handleMouseMove s x).startX = x
    ∧ (handleMouseMove s x).scroll
        = max 0 (min (s.scroll - (x - s.startX)) (((s.loadedCount : ℚ) - 1) * s.rectW))
    ∧ (x - s.startX < 0 → s.scroll < s.scroll - (x - s.startX)) := by
  refine ⟨handleMouseMove_startX s x hd hn, handleMouseMove_scroll s x hd hn, ?_⟩
  intro hneg
  linarith

/-- C5 witness: moving the pointer from x = 0 to x = -5 in the sample state
records -5 as the last pointer X and strictly raises the proposed offset. -/
theorem handleMouseMove_delta_spec_witness :
    (handleMouseMove sampleState (-5)).startX = -5
    ∧ sampleState.scroll < sampleState.scroll - ((-5 : ℚ) - sampleState.startX) := by
  have h := handleMouseMove_delta_spec sampleState (-5) rfl (by decide)
  exact ⟨h.1, h.2.2 (by norm_num [sampleState])⟩

/-- C7 counterexample to the claim as stated: a reachable state in which the
scroll offset exceeds (N - 1) times the current viewport width.  Load 4
images at width 640, drag to the maximum offset 1920, then resize the
viewport to width 320: the offset stays 1920, but (N - 1) times the current
width is only 960 — the resize path never re-clamps the scroll ref. -/
theorem scroll_bound_fails_after_resize :
    ¬ ((run (initState 640 400 1)
          [Event.imagesLoaded 4, Event.mouseDown 0, Event.mouseMove (-2000),
            Event.resize 320 400]).scroll
        ≤ (((run (initState 640 400 1)
          [Event.imagesLoaded 4, Event.mouseDown 0, Event.mouseMove (-2000),
            Event.resize 320 400]).loadedCount : ℚ) - 1)
          * (run (initState 640 400 1)
          [Event.imagesLoaded 4, Event.mouseDown 0, Event.mouseMove (-2000),
            Event.resize 320 400]).rectW) := by
  norm_num [run, step, initState, handleMouseDown, handleMouseMove, handleMouseUp,
    fireFrame, resizeCanvas, mkRenderCall]

/-- C7 as amended: in every reachable state the scroll offset is nonnegative,
and immediately after any drag update it is at most (N - 1) times the
viewport width read by that update; the upper bound is with respect to the
image count and width at the time of the last drag update, not the current
width, since resize and image-list events do not re-clamp the offset. -/
theorem scroll_nonneg_and_bounded_at_drag :
    (∀ w h d : ℚ, ∀ evs : List Event, 0 ≤ (run (initState w h d) evs).scroll)
    ∧ (∀ s : SliderState, ∀ x : ℚ, s.isDragging = true → s.loadedCount ≠ 0 →
        0 < s.rectW →
        (handleMouseMove s x).scroll ≤ ((s.loadedCount : ℚ) - 1) * s.rectW) := by
  constructor
  · intro w h d evs
    exact run_scroll_nonneg evs (initState w h d) (by norm_num [initState])
  · intro s x hd hn hw
    exact (scroll_clamped_each_update s x hd hn hw).2.2

/-- C7 witness: the nonnegativity invariant at the counterexample's event
sequence, and the drag-time upper bound in the sample state. -/
theorem scroll_nonneg_and_bounded_at_drag_witness :
    0 ≤ (run (initState 640 400 1)
          [Event.imagesLoaded 4, Event.mouseDown 0, Event.mouseMove (-2000),
            Event.resize 320 400]).scroll
    ∧ (handleMouseMove sampleState (-800)).scroll
        ≤ ((sampleState.loadedCount : ℚ) - 1) * sampleState.rectW := by
  obtain ⟨h1, h2⟩ := scroll_nonneg_and_bounded_at_drag
  exact ⟨h1 640 400 1 _, h2 sampleState (-800) rfl (by decide) (by norm_num [sampleState])⟩

/-- C8: frame coalescing.  (1) In every reachable state at most one
requestAnimationFrame callback is queued; (2) while one is pending
(animationFrame.current set), a further scroll update schedules no second
request and leaves the flag set; (3) when the pending callback fires, the
recorded draw reads the loaded count, scroll ref and canvas rectangle of the
state at fire time — not a snapshot from scheduling time — and the flag is
cleared. -/
theorem frame_coalescing :
    (∀ w h d : ℚ, ∀ evs : List Event, (run (initState w h d) evs).frameReqs ≤ 1)
    ∧ (∀ s : SliderState, ∀ x : ℚ, s.frameFlag = true →
        (handleMouseMove s x).frameReqs = s.frameReqs
        ∧ (handleMouseMove s x).frameFlag = true)
    ∧ (∀ s : SliderState, s.frameReqs ≠ 0 →
        (fireFrame s).paints = mkRenderCall s :: s.paints
        ∧ (fireFrame s).frameReqs = s.frameReqs - 1
        ∧ (fireFrame s).frameFlag = false) := by
  refine ⟨?_, ?_, ?_⟩
  · intro w h d evs
    have h0 : FrameInv (initState w h d) := by simp [FrameInv, initState]
    have h1 := frameInv_run evs (initState w h d) h0
    unfold FrameInv at h1
    rw [h1]
    split_ifs <;> norm_num
  · intro s x hf
    unfold handleMouseMove
    split_ifs <;> simp_all
  · intro s hr
    unfold fireFrame
    rw [if_pos hr]
    exact ⟨rfl, rfl, rfl⟩

/-- C8 witness: a drag run queues at most one callback; a move in the
pending sample state schedules nothing new; firing in that state paints with
its current scroll value. -/
theorem frame_coalescing_witness :
    (run (initState 640 400 1)
        [Event.mouseDown 0, Event.mouseMove (-100), Event.mouseMove (-50)]).frameReqs ≤ 1
    ∧ (handleMouseMove pendingState 3).frameReqs = pendingState.frameReqs
    ∧ (fireFrame pendingState).paints = mkRenderCall pendingState :: pendingState.paints := by
  obtain ⟨h1, h2, h3⟩ := frame_coalescing
  exact ⟨h1 640 400 1 _, (h2 pendingState 3 rfl).1, (h3 pendingState (by decide)).1⟩

/-- C10: a pointer-down with no images loaded still enters the dragging
state and switches the cursor to the drag-active indicator, but every
subsequent pointer-move is a no-op: the state (scroll offset 0, no queued
redraw, no paints) is unchanged by any list of moves. -/
theorem premature_drag_noop (s : SliderState) (x : ℚ)
    (h0 : s.loadedCount = 0) (hs : s.scroll = 0) :
    (handleMouseDown s x).isDragging = true
    ∧ cursorOf (handleMouseDown s x) = Cursor.grabbing
    ∧ (handleMouseDown s x).scroll = 0
    ∧ (handleMouseDown s x).frameReqs = s.frameReqs
    ∧ (handleMouseDown s x).paints = s.paints
    ∧ ∀ xs : List ℚ, List.foldl handleMouseMove (handleMouseDown s x) xs
        = handleMouseDown s x := by
  refine ⟨rfl, by simp [cursorOf, handleMouseDown], by simpa [handleMouseDown] using hs,
    rfl, rfl, ?_⟩
  have hcount : (handleMouseDown s x).loadedCount = 0 := h0
  generalize handleMouseDown s x = t at hcount ⊢
  intro xs
  induction xs with
  | nil => rfl
  | cons y ys ih =>
    have hmove : handleMouseMove t y = t :=
      handleMouseMove_of_not_dragging t y (by simp [hcount])
    simpa [List.foldl, hmove] using ih

/-- C10 witness: pointer-down at x = 5 in the pristine initial state, then
moves to 3 and -8, leave the state exactly as right after the pointer-down,
with the drag cursor shown. -/
theorem premature_drag_noop_witness :
    (handleMouseDown (initState 640 400 1) 5).isDragging = true
    ∧ cursorOf (handleMouseDown (initState 640 400 1) 5) = Cursor.grabbing
    ∧ List.foldl handleMouseMove (handleMouseDown (initState 640 400 1) 5) [3, -8]
        = handleMouseDown (initState 640 400 1) 5 := by
  have h := premature_drag_noop (initState 640 400 1) 5 rfl rfl
  exact ⟨h.1, h.2.1, h.2.2.2.2.2 [3, -8]⟩

/-- C9: a resize event with images loaded sets the backing store to the new
logical size times the device pixel ratio, sets the context transform to the
density scaling of the identity, leaves the scroll offset untouched, and
performs exactly one redraw, which reads the unchanged scroll offset and the
new dimensions. -/
theorem resizeCanvas_spec (s : SliderState) (w h : ℚ) (hn : s.loadedCount ≠ 0) :
    (step s (Event.resize w h)).backingW = w * s.dpr
    ∧ (step s (Event.resize w h)).backingH = h * s.dpr
    ∧ (step s (Event.resize w h)).tf = ⟨s.dpr, 0, 0, s.dpr, 0, 0⟩
    ∧ (step s (Event.resize w h)).scroll = s.scroll
    ∧ (step s (Event.resize w h)).paints
        = ⟨s.loadedCount, s.scroll, w, h⟩ :: s.paints := by
  simp [step, hn, resizeCanvas, mkRenderCall, Transform.scaleBy, Transform.setIdentity]

/-- C9 witness: resizing the sample state (dpr 1) to 320 by 200 doubles
nothing, keeps scroll 0 and records exactly one new draw at the new size. -/
theorem resizeCanvas_spec_witness :
    (step sampleState (Event.resize 320 200)).scroll = sampleState.scroll
    ∧ (step sampleState (Event.resize 320 200)).backingW = 320 * sampleState.dpr
    ∧ (step sampleState (Event.resize 320 200)).paints
        = ⟨sampleState.loadedCount, sampleState.scroll, 320, 200⟩ :: sampleState.paints := by
  have h := resizeCanvas_spec sampleState 320 200 (by decide)
  exact ⟨h.2.2.2.1, h.1, h.2.2.2.2⟩

/-- C6 evidence (code bug): two load requests are issued in succession (the
images prop changed while the first was in flight); the newer request (id 2,
delivering [20]) settles first and is committed, then the stale request
(id 1, delivering [10]) settles and — because setLoadedImages is called with
no generation guard — its result overwrites the state: the final committed
list is the superseded request's [10], not the latest request's [20]. -/
theorem stale_load_applied :
    (settleLoad (settleLoad (issueLoad (issueLoad (⟨0, [], []⟩ : LoaderState ℕ) [10]) [20]) 2) 1).latest = 2
    ∧ (settleLoad (settleLoad (issueLoad (issueLoad (⟨0, [], []⟩ : LoaderState ℕ) [10]) [20]) 2) 1).committed = [10]
    ∧ (settleLoad (issueLoad (issueLoad (⟨0, [], []⟩ : LoaderState ℕ) [10]) [20]) 2).committed = [20] := by
  decide

lemma promiseAll_of_all_isSome {β : Type} :
    ∀ l : List (Option β), (∀ o ∈ l, o.isSome) →
      ∃ r, promiseAll l = some r ∧ r.map some = l := by
  intro l
  induction l with
  | nil => exact fun _ => ⟨[], rfl, rfl⟩
  | cons o os ih =>
    intro hall
    obtain ⟨b, hb⟩ := Option.isSome_iff_exists.mp (hall o (List.mem_cons_self o os))
    obtain ⟨r, hr, hmap⟩ := ih (fun x hx => hall x (List.mem_cons_of_mem o hx))
    refine ⟨b :: r, ?_, ?_⟩
    · simp [promiseAll, hb, hr]
    · simp [hmap, hb]

lemma promiseAll_of_mem_none {β : Type} :
    ∀ l : List (Option β), none ∈ l → promiseAll l = none := by
  intro l
  induction l with
  | nil => intro h; cases h
  | cons o os ih =>
    intro h
    rcases List.mem_cons.mp h with h1 | h1
    · simp [promiseAll, h1.symm]
    · cases o with
      | none => simp [promiseAll]
      | some b => simp [promiseAll, ih h1]

/-- C4: the preloader is all-or-nothing.  If every source loads, the
committed list pairs up with the input list elementwise in order (its i-th
element is the i-th source's loaded asset) and has the same length; if any
single source fails, the previous loaded-image state is returned unchanged —
no partial set is committed, regardless of the other loads. -/
theorem loadImages_all_or_nothing {α β : Type} (load : α → Option β)
    (images : List α) (prev : List β) :
    ((∀ src ∈ images, (load src).isSome) →
        (loadImages load images prev).map some = images.map load
        ∧ (loadImages load images prev).length = images.length)
    ∧ ((∃ src ∈ images, load src = none) → loadImages load images prev = prev) := by
  constructor
  · intro hall
    obtain ⟨r, hr, hmap⟩ := promiseAll_of_all_isSome (images.map load) (by
      intro o ho
      obtain ⟨src, hsrc, hdef⟩ := List.mem_map.mp ho
      rw [← hdef]
      exact hall src hsrc)
    have hres : loadImages load images prev = r := by
      simp [loadImages, hr]
    constructor
    · rw [hres, hmap]
    · rw [hres]
      have := congrArg List.length hmap
      simpa using this
  · rintro ⟨src, hsrc, hnone⟩
    have hmem : none ∈ images.map load := List.mem_map.mpr ⟨src, hsrc, hnone⟩
    simp [loadImages, promiseAll_of_mem_none (images.map load) hmem]

/-- C4 witness: with sources [5, 6] both loading (to 50, 60), two assets are
committed; with sources [0, 1, 2, 3] where source 2 fails, the previous
state [99] is kept unchanged even though the other three loads succeeded. -/
theorem loadImages_all_or_nothing_witness :
    (loadImages (fun n : ℕ => if n = 2 then none else some (10 * n)) [5, 6] []).length = 2
    ∧ loadImages (fun n : ℕ => if n = 2 then none else some (10 * n)) [0, 1, 2, 3] [99]
        = [99] := by
  refine ⟨((loadImages_all_or_nothing _ [5, 6] []).1 (by decide)).2, ?_⟩
  exact (loadImages_all_or_nothing _ [0, 1, 2, 3] [99]).2 ⟨2, by decide, by decide⟩

/-- C1: for N loaded images, positive slide width w and scroll offset o in
[0, (N - 1) * w], the render pass computes slideIndex = floor(o / w) — always
a valid index, so the current slide is always drawn at xOffset
-(o mod w) — and draws the next slide at xOffset w - (o mod w) exactly when
slideIndex + 1 < N; the sub-offset o mod w equals o - w * floor(o / w). -/
theorem drawCurrentImages_spec (n : ℕ) (o w : ℚ)
    (_hn : 1 ≤ n) (hw : 0 < w) (ho : 0 ≤ o) (hmax : o ≤ ((n : ℚ) - 1) * w) :
    drawCurrentImages n o w
      = (⌊o / w⌋, -(jsFmod o w)) ::
          (if ⌊o / w⌋ + 1 < (n : ℤ) then [(⌊o / w⌋ + 1, w - jsFmod o w)] else [])
    ∧ jsFmod o w = o - w * ⌊o / w⌋
    ∧ 0 ≤ ⌊o / w⌋ ∧ ⌊o / w⌋ < (n : ℤ) := by
  have hq : 0 ≤ o / w := div_nonneg ho hw.le
  have hfl0 : 0 ≤ ⌊o / w⌋ := Int.floor_nonneg.mpr hq
  have hlt : ⌊o / w⌋ < (n : ℤ) := by
    have h1 : o / w ≤ (n : ℚ) - 1 := by
      rw [div_le_iff₀ hw]
      exact hmax
    have h2 : ⌊o / w⌋ ≤ ⌊(n : ℚ) - 1⌋ := Int.floor_le_floor h1
    have h3 : ⌊(n : ℚ) - 1⌋ = (n : ℤ) - 1 := by
      rw [show ((n : ℚ) - 1) = (((n : ℤ) - 1 : ℤ) : ℚ) by push_cast; ring,
        Int.floor_intCast]
    omega
  have hmod : jsFmod o w = o - w * ⌊o / w⌋ := by
    simp [jsFmod, jsTrunc, hq]
  refine ⟨?_, hmod, hfl0, hlt⟩
  show (if 0 ≤ ⌊o / w⌋ ∧ ⌊o / w⌋ < (n : ℤ) then [(⌊o / w⌋, -(jsFmod o w))] else []) ++
      (if 0 ≤ ⌊o / w⌋ + 1 ∧ ⌊o / w⌋ + 1 < (n : ℤ) then
        [(⌊o / w⌋ + 1, w - jsFmod o w)] else []) = _
  rw [if_pos ⟨hfl0, hlt⟩]
  by_cases hnext : ⌊o / w⌋ + 1 < (n : ℤ)
  · rw [if_pos ⟨by omega, hnext⟩, if_pos hnext]
    rfl
  · rw [if_neg (fun hc => hnext hc.2), if_neg hnext]
    rfl

/-- C1 witness: the spec scenario — slide width 640, 4 slides, offset 700 —
draws slide 1 at x = -60 and slide 2 at x = 580. -/
theorem drawCurrentImages_spec_witness :
    drawCurrentImages 4 700 640 = [(1, -60), (2, 580)] := by
  have h := (drawCurrentImages_spec 4 700 640 (by norm_num) (by norm_num)
    (by norm_num) (by norm_num)).1
  rw [h]
  norm_num [jsFmod, jsTrunc, Int.floor_eq_iff]

/-- The draw rectangle touches both vertical edges of a width-w target:
it starts at x = 0 and ends at x = w. -/
def spansX (r : FitRect) (w : ℚ) : Prop := r.x = 0 ∧ r.x + r.w = w

/-- The draw rectangle touches both horizontal edges of a height-h target. -/
def spansY (r : FitRect) (h : ℚ) : Prop := r.y = 0 ∧ r.y + r.h = h

/-- The claim's reading: the rectangle touches both edges on exactly one of
the two axes. -/
def spansExactlyOneAxis (r : FitRect) (w h : ℚ) : Prop :=
  (spansX r w ∧ ¬ spansY r h) ∨ (spansY r h ∧ ¬ spansX r w)

/-- C3 counterexample to the claim as stated: a square image in a square
target (image ratio = target ratio) produces a draw rectangle that fills the
whole target, touching both edges on BOTH axes — so it does not span the
target on exactly one axis. -/
theorem drawImageFit_square_spans_both_axes :
    spansX (drawImageFit 1 1 2 2) 2 ∧ spansY (drawImageFit 1 1 2 2) 2
    ∧ ¬ spansExactlyOneAxis (drawImageFit 1 1 2 2) 2 2 := by
  norm_num [drawImageFit, spansX, spansY, spansExactlyOneAxis]

/-- C3 as amended: for positive image dimensions and target rectangle, the
computed draw rectangle is contained in the target, preserves the image's
aspect ratio exactly (in the rational model), touches both edges on at least
one axis while being centered on the other, and can touch both edges on both
axes only when the image ratio equals the target ratio (the case the
counterexample exhibits). -/
theorem drawImageFit_letterbox (iw ih w h : ℚ)
    (hiw : 0 < iw) (hih : 0 < ih) (hw : 0 < w) (hh : 0 < h) :
    (0 ≤ (drawImageFit iw ih w h).x ∧ 0 ≤ (drawImageFit iw ih w h).y
      ∧ (drawImageFit iw ih w h).x + (drawImageFit iw ih w h).w ≤ w
      ∧ (drawImageFit iw ih w h).y + (drawImageFit iw ih w h).h ≤ h)
    ∧ (drawImageFit iw ih w h).w / (drawImageFit iw ih w h).h = iw / ih
    ∧ ((spansX (drawImageFit iw ih w h) w
          ∧ (drawImageFit iw ih w h).y = (h - (drawImageFit iw ih w h).h) / 2)
        ∨ (spansY (drawImageFit iw ih w h) h
          ∧ (drawImageFit iw ih w h).x = (w - (drawImageFit iw ih w h).w) / 2))
    ∧ ((spansX (drawImageFit iw ih w h) w ∧ spansY (drawImageFit iw ih w h) h)
        → iw / ih = w / h) := by
  have hR : 0 < iw / ih := div_pos hiw hih
  by_cases hcase : iw / ih > w / h
  · have hfit : drawImageFit iw ih w h
        = ⟨0, (h - w / (iw / ih)) / 2, w, w / (iw / ih)⟩ := by
      simp [drawImageFit, hcase]
    have hC : 0 < w / h := div_pos hw hh
    have h1 : w / (iw / ih) < w / (w / h) := div_lt_div_of_pos_left hw hC hcase
    have h2 : w / (w / h) = h := by field_simp
    have hlt : w / (iw / ih) < h := by rw [h2] at h1; exact h1
    have hdh : 0 < w / (iw / ih) := div_pos hw hR
    rw [hfit]
    refine ⟨⟨le_refl 0, ?_, ?_, ?_⟩, ?_, ?_, ?_⟩
    · show 0 ≤ (h - w / (iw / ih)) / 2
      linarith
    · show 0 + w ≤ w
      linarith
    · show (h - w / (iw / ih)) / 2 + w / (iw / ih) ≤ h
      linarith
    · show w / (w / (iw / ih)) = iw / ih
      rw [div_div_eq_mul_div, mul_div_cancel_left₀ _ hw.ne']
    · refine Or.inl ⟨⟨rfl, ?_⟩, rfl⟩
      show 0 + w = w
      ring
    · intro hb
      exfalso
      have hy0 : (h - w / (iw / ih)) / 2 = 0 := hb.2.1
      linarith
  · have hle' : iw / ih ≤ w / h := le_of_not_lt hcase
    have hfit : drawImageFit iw ih w h
        = ⟨(w - h * (iw / ih)) / 2, 0, h * (iw / ih), h⟩ := by
      simp [drawImageFit, hcase]
    have hmul : (iw / ih) * h ≤ w := (le_div_iff₀ hh).mp hle'
    have hle : h * (iw / ih) ≤ w := by rw [mul_comm]; exact hmul
    have hpos : 0 < h * (iw / ih) := mul_pos hh hR
    rw [hfit]
    refine ⟨⟨?_, le_refl 0, ?_, ?_⟩, ?_, ?_, ?_⟩
    · show 0 ≤ (w - h * (iw / ih)) / 2
      linarith
    · show (w - h * (iw / ih)) / 2 + h * (iw / ih) ≤ w
      linarith
    · show 0 + h ≤ h
      linarith
    · show h * (iw / ih) / h = iw / ih
      rw [mul_div_cancel_left₀ _ hh.ne']
    · refine Or.inr ⟨⟨rfl, ?_⟩, rfl⟩
      show 0 + h = h
      ring
    · intro hb
      have hx0 : (w - h * (iw / ih)) / 2 = 0 := hb.1.1
      have hwr : h * (iw / ih) = w := by linarith
      rw [eq_div_iff hh.ne']
      calc iw / ih * h = h * (iw / ih) := by ring
        _ = w := hwr

/-- C3 witness: a 4:3 image in a 200 by 100 target is height-limited: the
draw rectangle preserves the 4/3 ratio, spans the vertical axis, and is
contained in the target. -/
theorem drawImageFit_letterbox_witness :
    (drawImageFit 4 3 200 100).w / (drawImageFit 4 3 200 100).h = 4 / 3
    ∧ 0 ≤ (drawImageFit 4 3 200 100).x
    ∧ (drawImageFit 4 3 200 100).x + (drawImageFit 4 3 200 100).w ≤ 200 := by
  have hmain := drawImageFit_letterbox 4 3 200 100 (by norm_num) (by norm_num)
    (by norm_num) (by norm_num)
  exact ⟨hmain.2.1, hmain.1.1, hmain.1.2.2.1⟩

end CanvasSlider
